import Mathlib

/-!
Shallow embedding of the grpc-web-client transport adapter, from
src/grpc-web-client/src/lib.rs and src/grpc-web-client/src/worker/mod.rs.
The host fetch boundary (web_sys) is made explicit: a dispatch takes the
host fetch outcome as an argument and records the fetch invocation it
issues, so properties about what reaches the host are stated directly.
Byte buffers (Uint8Array, HeaderValue) are lists of naturals below 256 in
the reachable cases; strings are Lean strings.
-/

namespace GrpcWebClient

/-- Opaque JavaScript error payload (a JsValue carried by host rejections). -/
structure JsErr where
  id : Nat
deriving DecidableEq

/-- Unified error type, from lib.rs ClientError: Err, FetchFailed(JsValue),
Other(String). -/
inductive ClientError where
  | err : ClientError
  | fetchFailed : JsErr → ClientError
  | other : String → ClientError
deriving DecidableEq

/-- Credentials policy, type alias of web_sys::RequestCredentials with
variants Omit, SameOrigin, Include. -/
inductive CredentialsMode where
  | omitCreds : CredentialsMode
  | sameOrigin : CredentialsMode
  | includeCreds : CredentialsMode
deriving DecidableEq

/-- Request mode, type alias of web_sys::RequestMode with variants
SameOrigin, NoCors, Cors, Navigate. -/
inductive RequestMode where
  | sameOrigin : RequestMode
  | noCors : RequestMode
  | cors : RequestMode
  | navigate : RequestMode
deriving DecidableEq

/-- Transport encoding enum. Its defining file (src/call.rs) is not among
the provided sources; the spec describes it as an enum of codec
identifiers (none / base64 / other), and lib.rs references the variant
Encoding::None as the constructor default. -/
inductive Encoding where
  | none : Encoding
  | base64 : Encoding
deriving DecidableEq

/-- Modelled from the spec: Encoding::to_content_type is defined in
src/call.rs, which is absent from the sources. The spec states that every
outbound request carries a content-type header derived from the configured
transport encoding, never omitted and never inconsistent with the encoding
enum, so it is modelled as an injective map from encoding to a
content-type string. -/
def Encoding.to_content_type : Encoding → String
  | Encoding.none => "application/grpc-web+proto"
  | Encoding.base64 => "application/grpc-web-text+proto"

/-- Adapter configuration, from lib.rs struct Client. -/
structure Client where
  base_uri : String
  credentials : CredentialsMode
  mode : RequestMode
  encoding : Encoding
deriving DecidableEq

/-- Client::new: stores the base uri and fills in the default credentials
policy, request mode and encoding. -/
def Client.new (base_uri : String) : Client :=
  { base_uri := base_uri
    credentials := CredentialsMode.sameOrigin
    mode := RequestMode.cors
    encoding := Encoding.none }

/-- A byte of a buffer or header value. -/
abbrev Byte := Nat

/-- An owned byte buffer (contents of a Uint8Array, or a Bytes value). -/
abbrev Chunk := List Byte

/-- Visible-ASCII test used by http HeaderValue::to_str: a byte passes when
it is in the range 32..=126 or is horizontal tab. -/
def visibleAscii (b : Byte) : Bool :=
  (32 ≤ b && b < 127) || b == 9

/-- Decode an all-ASCII byte sequence into the string to_str would return. -/
def asciiDecode (v : List Byte) : String :=
  String.mk (v.map Char.ofNat)

/-- Encode a string back to its byte sequence (inverse of asciiDecode on
ASCII content). -/
def asciiEncode (s : String) : List Byte :=
  s.data.map Char.toNat

/-- HeaderValue::to_str, as invoked at lib.rs line 102 with the `?` running
the From ToStrError conversion: succeeds on visible-ASCII values and
otherwise produces the fixed descriptive error. -/
def headerValueToStr (v : List Byte) : Except ClientError String :=
  if v.all visibleAscii then Except.ok (asciiDecode v)
  else Except.error (ClientError.other ("Header value contained invalid ASCII"))

/-- ASCII lowercasing, as the host Headers container applies to header
names (header names are ASCII tokens, so ASCII lowercasing is the full
normalization). -/
def lowerAscii (s : String) : String :=
  String.mk (s.data.map Char.toLower)

/-- web_sys Headers::set: normalizes the name to lowercase, then replaces
the value of an existing entry with that name or appends a new entry.
Names reaching this call from Client::request come from http HeaderName
values or are literal tokens, which the host header-name validation always
accepts, so the host-side throw case is unreachable and the model is
total. -/
def headersSet (hs : List (String × String)) (k v : String) :
    List (String × String) :=
  let k2 := lowerAscii k
  if hs.any (fun p => p.1 == k2) then
    hs.map (fun p => if p.1 == k2 then (p.1, v) else p)
  else hs ++ [(k2, v)]

/-- Lookup in the host header container, by case-insensitive name. -/
def headersGet (hs : List (String × String)) (k : String) : Option String :=
  (hs.find? (fun p => p.1 == lowerAscii k)).map (fun p => p.2)

/-- The loop at lib.rs lines 99-104: copy every outbound (name, value)
pair into the host header container via Headers::set, converting each
value with to_str and failing on the first conversion error. -/
def buildCallerHeaders (acc : List (String × String)) :
    List (String × List Byte) → Except ClientError (List (String × String))
  | [] => Except.ok acc
  | (k, v) :: rest =>
    match headerValueToStr v with
    | Except.error e => Except.error e
    | Except.ok s => buildCallerHeaders (headersSet acc k s) rest

/-- Outbound header construction in Client::request: copy the caller
headers, then force-set x-user-agent and content-type. -/
def buildRequestHeaders (c : Client) (hm : List (String × List Byte)) :
    Except ClientError (List (String × String)) :=
  match buildCallerHeaders [] hm with
  | Except.error e => Except.error e
  | Except.ok hs =>
    let hs := headersSet hs ("x-user-agent") ("grpc-web-rust/0.1")
    Except.ok (headersSet hs ("content-type") (Encoding.to_content_type c.encoding))

/-- Token-character test of http HeaderName::from_bytes: digits, letters
of either case, and the punctuation bytes 33, 35, 36, 37, 38, 39, 42, 43,
45, 46, 94, 95, 96, 124, 126. -/
def isTokenChar (c : Char) : Bool :=
  let n := c.toNat
  (48 ≤ n && n ≤ 57) || (97 ≤ n && n ≤ 122) || (65 ≤ n && n ≤ 90) ||
  n == 33 || n == 35 || n == 36 || n == 37 || n == 38 || n == 39 ||
  n == 42 || n == 43 || n == 45 || n == 46 || n == 94 || n == 95 ||
  n == 96 || n == 124 || n == 126

/-- HeaderName::from_bytes on the bytes of a string, with the `?` running the
From InvalidHeaderName conversion: a nonempty all-token-character string
parses to its lowercase form, anything else is the fixed descriptive
error. -/
def headerNameFromString (s : String) : Except ClientError String :=
  if !s.data.isEmpty && s.data.all isTokenChar then Except.ok (lowerAscii s)
  else Except.error (ClientError.other ("Header name was invalid"))

/-- Valid-byte test of http HeaderValue::from_str: horizontal tab, or any
byte at least 32 other than delete. Characters above 127 encode to UTF-8
bytes that all pass, so the per-character test is faithful. -/
def isValidHeaderValueChar (c : Char) : Bool :=
  c.toNat == 9 || (32 ≤ c.toNat && c.toNat != 127)

/-- HeaderValue::from_str, with the `?` running the From InvalidHeaderValue
conversion. -/
def headerValueFromString (s : String) : Except ClientError String :=
  if s.data.all isValidHeaderValueChar then Except.ok s
  else Except.error (ClientError.other ("Header value was invalid"))

/-- The loop at lib.rs lines 126-144: each host response header entry is an
array whose slots 0 and 1 are the name and the value when convertible to
strings; a missing name or value fails descriptively, a present name goes
through HeaderName::from_bytes and a present value through
HeaderValue::from_str, and valid pairs are appended to the response
HeaderMap in order. The model takes the already-iterated entries; the host
iterator itself is assumed to yield without throwing, as claims about
iterator failures are out of scope here. -/
def parseResponseHeaders :
    List (Option String × Option String) → Except ClientError (List (String × String))
  | [] => Except.ok []
  | (nopt, vopt) :: rest =>
    match nopt with
    | Option.none => Except.error (ClientError.other ("Header pair had no name"))
    | Option.some ns =>
      match headerNameFromString ns with
      | Except.error e => Except.error e
      | Except.ok n =>
        match vopt with
        | Option.none => Except.error (ClientError.other ("Header pair had no value"))
        | Option.some vs =>
          match headerValueFromString vs with
          | Except.error e => Except.error e
          | Except.ok v =>
            match parseResponseHeaders rest with
            | Except.error e => Except.error e
            | Except.ok tail => Except.ok ((n, v) :: tail)

deriving instance DecidableEq for Except

/-- Status from tonic; only the unknown constructor is exercised here. -/
inductive Status where
  | unknown : String → Status
deriving DecidableEq

/-- A host readable byte stream, as the sequence of items its reader
yields in order: each item is an ok buffer or an error carrying the host
error value; the end of the list is the stream reporting done. -/
abbrev HostStream := List (Except JsErr Chunk)

/-- Uint8Array::copy_to of a source buffer into a destination buffer of
the same length. -/
def copy_to (src dst : List Byte) : List Byte :=
  src.take dst.length ++ dst.drop src.length

/-- The mandatory buffer copy in ReadableStreamBody::new: allocate a zero
vector of the same length as the buffer and copy the buffer into it. -/
def copyChunk (buffer : Chunk) : Chunk :=
  copy_to buffer (List.replicate buffer.length 0)

/-- ReadableStreamBody::new at lib.rs lines 181-198: wrap the host stream,
sending every ok chunk through the buffer copy (map_ok) and collapsing any
stream error to the generic unknown status, detail discarded (map_err).
The resulting list is the sequence of items successive poll_data calls
yield before poll_data returns None. -/
def readableStreamBody (inner : HostStream) : List (Except Status Chunk) :=
  inner.map (fun r =>
    match r with
    | Except.ok buf => Except.ok (copyChunk buf)
    | Except.error _ => Except.error (Status.unknown ("readablestream error")))

/-- Body::poll_trailers for ReadableStreamBody: always ready with Ok(None). -/
def pollTrailers : Except Status (Option (List (String × String))) :=
  Except.ok Option.none

/-- Body::is_end_stream for ReadableStreamBody: unconditionally false. -/
def isEndStream : Bool := false

/-- An outbound RPC request as Client::request consumes it: the uri
rendered to a string, the (name, value bytes) pairs of the header map in
iteration order, and the body already materialized to bytes (the
hyper to_bytes step, assumed to succeed as body draining is out of
scope). -/
structure RpcRequest where
  uri : String
  headers : List (String × List Byte)
  body : List Byte
deriving DecidableEq

/-- A host fetch response: status, the header entries its header iterator
yields, and the optional body stream. -/
structure HostResponse where
  status : Nat
  headers : List (Option String × Option String)
  body : Option HostStream
deriving DecidableEq

/-- web_sys::RequestInit, restricted to the fields this adapter touches;
a None field is one the adapter never set, left to the host default. -/
structure RequestInit where
  method : Option String
  credentials : Option CredentialsMode
  mode : Option RequestMode
  body : Option (List Byte)
  headers : Option (List (String × String))
deriving DecidableEq

/-- RequestInit::new: every field unset. -/
def RequestInit.new : RequestInit :=
  { method := Option.none
    credentials := Option.none
    mode := Option.none
    body := Option.none
    headers := Option.none }

/-- worker::post_init at worker/mod.rs lines 17-22: builds the RequestInit
for a dispatch, setting only the method to POST; the Client argument is
received but not read. -/
def post_init (_client : Client) : RequestInit :=
  { RequestInit.new with method := Option.some ("POST") }

/-- The record of one host fetch invocation: the absolute uri string and
the RequestInit handed to web_sys::Request::new_with_str_and_init. -/
structure FetchCall where
  uri : String
  init : RequestInit
deriving DecidableEq

/-- The RPC-facing response Client::request builds: host status, the
re-validated headers, and the body as the bridged stream items. The final
framing wrap (GrpcWebCall::client_response with the encoding detected from
content-type) belongs to the out-of-scope framing layer and is not
modelled; the body here is the ReadableStreamBody output it wraps. -/
structure RpcResponse where
  status : Nat
  headers : List (String × String)
  body : List (Except Status Chunk)
deriving DecidableEq

/-- Client::request at lib.rs lines 95-159, with the host boundary
explicit. The host argument is the outcome the host fetch would produce
for this dispatch. The first component is the dispatch result; the second
records the fetch invocation, none when the dispatch failed before any
fetch was issued. -/
def Client.request (c : Client) (rpc : RpcRequest)
    (host : Except JsErr HostResponse) :
    Except ClientError RpcResponse × Option FetchCall :=
  let uri := c.base_uri ++ rpc.uri
  match buildRequestHeaders c rpc.headers with
  | Except.error e => (Except.error e, Option.none)
  | Except.ok hs =>
    let init0 := post_init c
    let init := { init0 with body := Option.some rpc.body, headers := Option.some hs }
    let call : FetchCall := { uri := uri, init := init }
    match host with
    | Except.error jv => (Except.error (ClientError.fetchFailed jv), Option.some call)
    | Except.ok res =>
      match parseResponseHeaders res.headers with
      | Except.error e => (Except.error e, Option.some call)
      | Except.ok rhs =>
        match res.body with
        | Option.none =>
          (Except.error (ClientError.other ("Response body was empty")), Option.some call)
        | Option.some stream =>
          (Except.ok { status := res.status, headers := rhs,
                       body := readableStreamBody stream }, Option.some call)

/-- The mandatory copy returns a buffer with exactly the source contents. -/
theorem copyChunk_eq (buffer : Chunk) : copyChunk buffer = buffer := by
  unfold copyChunk copy_to
  simp

/-- C2: for a host stream of N chunks followed by normal closure, the
bridge yields exactly those N chunks as successful items, contents equal
and in the original order, then end-of-stream (the item after the N-th is
none), and the trailers query returns Ok(None). -/
theorem bridge_chunks_then_close (chunks : List Chunk) :
    readableStreamBody (chunks.map Except.ok) = chunks.map Except.ok ∧
    (readableStreamBody (chunks.map Except.ok)).get? chunks.length = Option.none ∧
    pollTrailers = Except.ok Option.none := by
  have hmap : readableStreamBody (chunks.map Except.ok) = chunks.map Except.ok := by
    unfold readableStreamBody
    rw [List.map_map]
    apply List.map_congr_left
    intro c _
    simp [Function.comp, copyChunk_eq]
  refine ⟨hmap, ?_, rfl⟩
  rw [hmap, List.get?_eq_none]
  simp

/-- C3: for a host stream of K chunks followed by a stream error, the
bridge yields exactly the K chunks as successful items, then one generic
unknown stream error with the host error detail discarded, and nothing
after it. -/
theorem bridge_chunks_then_error (chunks : List Chunk) (e : JsErr) :
    readableStreamBody (chunks.map Except.ok ++ [Except.error e]) =
      chunks.map Except.ok ++
        [Except.error (Status.unknown ("readablestream error"))] ∧
    (readableStreamBody (chunks.map Except.ok ++ [Except.error e])).get?
      (chunks.length + 1) = Option.none := by
  have hmap : readableStreamBody (chunks.map Except.ok ++ [Except.error e]) =
      chunks.map Except.ok ++
        [Except.error (Status.unknown ("readablestream error"))] := by
    unfold readableStreamBody
    rw [List.map_append, List.map_map]
    congr 1
    apply List.map_congr_left
    intro c _
    simp [Function.comp, copyChunk_eq]
  refine ⟨hmap, ?_⟩
  rw [hmap, List.get?_eq_none]
  simp

/-- C10: the constructor stores the given base address and defaults to
credentials same-origin, mode cors and encoding none. -/
theorem client_new_defaults (base : String) :
    (Client.new base).base_uri = base ∧
    (Client.new base).credentials = CredentialsMode.sameOrigin ∧
    (Client.new base).mode = RequestMode.cors ∧
    (Client.new base).encoding = Encoding.none :=
  ⟨rfl, rfl, rfl, rfl⟩

/-- Helper: the fetch invocation a dispatch records is determined by the
outbound header construction alone; when the headers build, the fetch is
issued at the concatenated uri with the worker RequestInit. -/
theorem request_snd_eq (c : Client) (rpc : RpcRequest)
    (host : Except JsErr HostResponse) :
    (Client.request c rpc host).2 =
      match buildRequestHeaders c rpc.headers with
      | Except.error _ => Option.none
      | Except.ok hs => Option.some
          { uri := c.base_uri ++ rpc.uri
            init := { method := Option.some ("POST")
                      credentials := Option.none
                      mode := Option.none
                      body := Option.some rpc.body
                      headers := Option.some hs } } := by
  unfold Client.request post_init RequestInit.new
  cases buildRequestHeaders c rpc.headers with
  | error e => rfl
  | ok hs =>
    cases host with
    | error jv => rfl
    | ok res =>
      cases hpr : parseResponseHeaders res.headers with
      | error e => simp [hpr]
      | ok rhs =>
        cases hb : res.body with
        | none => simp [hpr, hb]
        | some stream => simp [hpr, hb]

/-- Sample adapter configuration used by concrete instantiations: a
non-default credentials policy and request mode, so that whether dispatch
applies them is observable. -/
def sampleClient : Client :=
  { base_uri := "https://api.example.com"
    credentials := CredentialsMode.includeCreds
    mode := RequestMode.noCors
    encoding := Encoding.base64 }

/-- Sample outbound RPC request used by concrete instantiations. -/
def sampleRpc : RpcRequest :=
  { uri := "/pkg.Service/Method", headers := [], body := [] }

/-- Sample host rejection used by concrete instantiations. -/
def sampleReject : Except JsErr HostResponse :=
  Except.error { id := 0 }

/-- C1 as stated is false: the worker post_init ignores its Client
argument, so the RequestInit handed to the host fetch leaves the
credentials and mode fields unset instead of carrying the configured
configured values. Concretely, a client configured with credentials
include and mode no-cors dispatches a fetch whose init has credentials
none and mode none. -/
theorem dispatch_init_carries_config_counterexample :
    ¬ (∀ (c : Client) (rpc : RpcRequest) (host : Except JsErr HostResponse)
        (call : FetchCall),
        (Client.request c rpc host).2 = Option.some call →
        call.init.credentials = Option.some c.credentials ∧
        call.init.mode = Option.some c.mode) := by
  intro h
  have h2 := h sampleClient sampleRpc sampleReject
      { uri := "https://api.example.com/pkg.Service/Method"
        init := { method := Option.some ("POST")
                  credentials := Option.none
                  mode := Option.none
                  body := Option.some []
                  headers := Option.some
                    [("x-user-agent", "grpc-web-rust/0.1"),
                     ("content-type", "application/grpc-web-text+proto")] } }
      (by decide)
  exact Option.noConfusion h2.1

/-- C1 (amended): every dispatched fetch is issued with method POST, but
the configured credentials policy and request mode are not applied to the
RequestInit: the worker post_init leaves both fields unset, so the host
defaults govern them. -/
theorem dispatch_init_post_unset_config (c : Client) (rpc : RpcRequest)
    (host : Except JsErr HostResponse) (call : FetchCall)
    (h : (Client.request c rpc host).2 = Option.some call) :
    call.init.method = Option.some ("POST") ∧
    call.init.credentials = Option.none ∧
    call.init.mode = Option.none := by
  rw [request_snd_eq] at h
  cases hb : buildRequestHeaders c rpc.headers with
  | error e => rw [hb] at h; exact Option.noConfusion h
  | ok hs =>
    rw [hb] at h
    cases h
    exact ⟨rfl, rfl, rfl⟩

/-- Witness for the amended C1 at a concrete dispatch. -/
theorem dispatch_init_post_unset_config_witness :
    ∃ call : FetchCall,
      (Client.request sampleClient sampleRpc sampleReject).2 =
        Option.some call ∧
      call.init.method = Option.some ("POST") ∧
      call.init.credentials = Option.none ∧
      call.init.mode = Option.none := by
  refine ⟨{ uri := "https://api.example.com/pkg.Service/Method"
            init := { method := Option.some ("POST")
                      credentials := Option.none
                      mode := Option.none
                      body := Option.some []
                      headers := Option.some
                        [("x-user-agent", "grpc-web-rust/0.1"),
                         ("content-type", "application/grpc-web-text+proto")] } },
         by decide, ?_⟩
  exact dispatch_init_post_unset_config sampleClient sampleRpc sampleReject _ (by decide)

/-- C9: the target of the dispatched host request is the exact string
concatenation of the configured base address and the request path. -/
theorem dispatch_uri_is_concat (c : Client) (rpc : RpcRequest)
    (host : Except JsErr HostResponse) (call : FetchCall)
    (h : (Client.request c rpc host).2 = Option.some call) :
    call.uri = c.base_uri ++ rpc.uri := by
  rw [request_snd_eq] at h
  cases hb : buildRequestHeaders c rpc.headers with
  | error e => rw [hb] at h; exact Option.noConfusion h
  | ok hs =>
    rw [hb] at h
    cases h
    rfl

/-- Witness for C9 at the example given by the spec: base address
https://api.example.com and path /pkg.Service/Method yield exactly
https://api.example.com/pkg.Service/Method. -/
theorem dispatch_uri_is_concat_witness :
    ∃ call : FetchCall,
      (Client.request (Client.new ("https://api.example.com")) sampleRpc
        sampleReject).2 = Option.some call ∧
      call.uri = ("https://api.example.com/pkg.Service/Method") := by
  refine ⟨{ uri := "https://api.example.com/pkg.Service/Method"
            init := { method := Option.some ("POST")
                      credentials := Option.none
                      mode := Option.none
                      body := Option.some []
                      headers := Option.some
                        [("x-user-agent", "grpc-web-rust/0.1"),
                         ("content-type", "application/grpc-web+proto")] } },
         by decide, ?_⟩
  exact dispatch_uri_is_concat (Client.new ("https://api.example.com")) sampleRpc
    sampleReject _ (by decide)

/-- Round-trip of a code point below the surrogate range through Char. -/
theorem char_toNat_ofNat (n : Nat) (h : n < 55296) :
    (Char.ofNat n).toNat = n := by
  have hv : n.isValidChar := Or.inl h
  unfold Char.ofNat
  rw [dif_pos hv]
  rfl

/-- A byte passing the visible-ASCII test is below 127. -/
theorem visibleAscii_lt (b : Byte) (h : visibleAscii b = true) : b < 127 := by
  unfold visibleAscii at h
  simp only [Bool.or_eq_true, Bool.and_eq_true, decide_eq_true_eq,
    beq_iff_eq] at h
  rcases h with ⟨h1, h2⟩ | h1
  · exact h2
  · rw [h1]
    decide

/-- Decoding a visible-ASCII byte sequence and re-encoding it returns the
original bytes: the string to_str yields represents the value exactly. -/
theorem asciiEncode_asciiDecode (v : List Byte)
    (h : ∀ b ∈ v, visibleAscii b = true) :
    asciiEncode (asciiDecode v) = v := by
  unfold asciiEncode asciiDecode
  rw [show (String.mk (v.map Char.ofNat)).data = v.map Char.ofNat from rfl]
  rw [List.map_map]
  conv_rhs => rw [← List.map_id v]
  apply List.map_congr_left
  intro b hb
  have hlt : b < 127 := visibleAscii_lt b (h b hb)
  simpa [Function.comp] using
    char_toNat_ofNat b (Nat.lt_trans hlt (by decide))

/-- Setting a name absent from the container appends the entry. -/
theorem headersSet_fresh (hs : List (String × String)) (k v : String)
    (h : ∀ p ∈ hs, p.1 ≠ lowerAscii k) :
    headersSet hs k v = hs ++ [(lowerAscii k, v)] := by
  have h2 : hs.any (fun p => p.1 == lowerAscii k) = false := by
    rw [List.any_eq_false]
    intro p hp
    simpa using h p hp
  simp [headersSet, h2]

/-- Copying a mapping with lowercase names, pairwise distinct names and
visible-ASCII values appends each pair to the accumulator in order. -/
theorem buildCallerHeaders_app (hm : List (String × List Byte))
    (acc : List (String × String))
    (hvals : ∀ p ∈ hm, ∀ b ∈ p.2, visibleAscii b = true)
    (hlower : ∀ p ∈ hm, lowerAscii p.1 = p.1)
    (hfresh : ∀ p ∈ hm, ∀ q ∈ acc, q.1 ≠ p.1)
    (hnodup : (hm.map Prod.fst).Nodup) :
    buildCallerHeaders acc hm =
      Except.ok (acc ++ hm.map (fun p => (p.1, asciiDecode p.2))) := by
  induction hm generalizing acc with
  | nil => simp [buildCallerHeaders]
  | cons p rest ih =>
    obtain ⟨k, v⟩ := p
    have hmem : ((k, v) : String × List Byte) ∈ (k, v) :: rest :=
      List.mem_cons_self _ _
    have hv : headerValueToStr v = Except.ok (asciiDecode v) := by
      unfold headerValueToStr
      rw [if_pos]
      exact List.all_eq_true.mpr fun b hb => hvals (k, v) hmem b hb
    have hlk : lowerAscii k = k := hlower (k, v) hmem
    have hset : headersSet acc k (asciiDecode v) =
        acc ++ [(k, asciiDecode v)] := by
      have := headersSet_fresh acc k (asciiDecode v) (by
        intro q hq
        rw [hlk]
        exact hfresh (k, v) hmem q hq)
      rwa [hlk] at this
    have hnd : k ∉ rest.map Prod.fst ∧ (rest.map Prod.fst).Nodup := by
      simp only [List.map_cons] at hnodup
      exact List.nodup_cons.mp hnodup
    have hstep : buildCallerHeaders acc ((k, v) :: rest) =
        buildCallerHeaders (headersSet acc k (asciiDecode v)) rest := by
      simp [buildCallerHeaders, hv]
    rw [hstep, hset]
    rw [ih (acc ++ [(k, asciiDecode v)])
      (fun p hp => hvals p (List.mem_cons_of_mem _ hp))
      (fun p hp => hlower p (List.mem_cons_of_mem _ hp))
      (by
        intro p hp q hq
        rcases List.mem_append.mp hq with hq1 | hq2
        · exact hfresh p (List.mem_cons_of_mem _ hp) q hq1
        · have hqk : q.1 = k := by
            rcases List.mem_singleton.mp hq2 with rfl
            rfl
          rw [hqk]
          intro hkp
          exact hnd.1 (hkp ▸ List.mem_map_of_mem Prod.fst hp))
      hnd.2]
    simp

/-- C4: copying a header mapping with ASCII-safe valid content through the
outbound-header-construction step preserves every (name, value) pair: the
host container holds exactly the caller pairs, names unchanged (valid http
header names are lowercase, which the host normalization fixes), and the
transferred string values re-encode to the original value bytes. Order is
irrelevant because each pair is preserved at its own name, names being
pairwise distinct. -/
theorem outbound_header_copy_preserves (hm : List (String × List Byte))
    (hvals : ∀ p ∈ hm, ∀ b ∈ p.2, visibleAscii b = true)
    (hlower : ∀ p ∈ hm, lowerAscii p.1 = p.1)
    (hnodup : (hm.map Prod.fst).Nodup) :
    buildCallerHeaders [] hm =
      Except.ok (hm.map (fun p => (p.1, asciiDecode p.2))) ∧
    (hm.map (fun p => (p.1, asciiDecode p.2))).map
      (fun q => (q.1, asciiEncode q.2)) = hm := by
  constructor
  · simpa using buildCallerHeaders_app hm [] hvals hlower (by simp) hnodup
  · rw [List.map_map]
    conv_rhs => rw [← List.map_id hm]
    apply List.map_congr_left
    intro p hp
    simp [Function.comp, asciiEncode_asciiDecode p.2 (hvals p hp)]

/-- Witness for C4 at a concrete two-entry mapping. -/
theorem outbound_header_copy_preserves_witness :
    buildCallerHeaders [] [("x-custom", [104, 105]), ("accept", [42])] =
      Except.ok [("x-custom", "hi"), ("accept", "*")] ∧
    ([("x-custom", "hi"), ("accept", "*")] : List (String × String)).map
      (fun q => (q.1, asciiEncode q.2)) =
      [("x-custom", [104, 105]), ("accept", [42])] := by
  have h := outbound_header_copy_preserves
    [("x-custom", [104, 105]), ("accept", [42])]
    (by decide) (by decide) (by decide)
  exact ⟨by rw [h.1]; rfl, by have h2 := h.2; exact h2⟩

/-- Looking up the name just set returns the value set. -/
theorem headersGet_headersSet_self (hs : List (String × String)) (k v : String) :
    headersGet (headersSet hs k v) k = Option.some v := by
  unfold headersGet headersSet
  induction hs with
  | nil => simp
  | cons q t ih =>
    by_cases hq : q.1 = lowerAscii k
    · simp [List.any_cons, List.find?_cons, hq]
    · by_cases ht : t.any (fun p => p.1 == lowerAscii k)
      · simpa [List.any_cons, List.find?_cons, hq, ht] using ih
      · simpa [List.any_cons, List.find?_cons, hq, ht] using ih

/-- Replacing the values stored at one name does not change what a lookup
of a different name finds. -/
theorem find_map_replace_other (t : List (String × String))
    (kk kk2 v : String) (hne : kk ≠ kk2) :
    ((t.map (fun p => if p.1 == kk2 then (p.1, v) else p)).find?
        (fun p => p.1 == kk)).map (fun p => p.2) =
      (t.find? (fun p => p.1 == kk)).map (fun p => p.2) := by
  induction t with
  | nil => simp
  | cons q t ih =>
    by_cases hq2 : q.1 = kk2
    · have hqk : ¬(q.1 = kk) := by
        rw [hq2]
        exact Ne.symm hne
      simpa [List.find?_cons, hq2, hqk, Ne.symm hne, hne] using ih
    · by_cases hqk : q.1 = kk
      · simp [List.find?_cons, hq2, hqk, Ne.symm hne, hne]
      · simpa [List.find?_cons, hq2, hqk, Ne.symm hne, hne] using ih

/-- Appending an entry under one name does not change what a lookup of a
different name finds. -/
theorem find_append_other (t : List (String × String))
    (kk kk2 v : String) (hne : kk ≠ kk2) :
    (t ++ [(kk2, v)]).find? (fun p => p.1 == kk) =
      t.find? (fun p => p.1 == kk) := by
  induction t with
  | nil => simp [List.find?_cons, Ne.symm hne]
  | cons q t ih =>
    by_cases hqk : q.1 = kk
    · simp [List.find?_cons, hqk]
    · simpa [List.find?_cons, hqk] using ih

/-- Setting one name leaves lookups of a differently-normalizing name
unchanged. -/
theorem headersGet_headersSet_other (hs : List (String × String))
    (k k2 v : String) (hne : lowerAscii k ≠ lowerAscii k2) :
    headersGet (headersSet hs k2 v) k = headersGet hs k := by
  unfold headersGet headersSet
  by_cases hany : hs.any (fun p => p.1 == lowerAscii k2)
  · simpa [hany] using
      find_map_replace_other hs (lowerAscii k) (lowerAscii k2) v hne
  · simp only [hany]
    rw [if_neg (by simp [hany])]
    rw [find_append_other hs (lowerAscii k) (lowerAscii k2) v hne]

/-- Helper: a successful outbound header construction is the caller copy
followed by the two forced sets. -/
theorem buildRequestHeaders_ok_shape (c : Client)
    (hm : List (String × List Byte)) (hs : List (String × String))
    (h : buildRequestHeaders c hm = Except.ok hs) :
    ∃ hs0, buildCallerHeaders [] hm = Except.ok hs0 ∧
      hs = headersSet
        (headersSet hs0 ("x-user-agent") ("grpc-web-rust/0.1"))
        ("content-type") (Encoding.to_content_type c.encoding) := by
  unfold buildRequestHeaders at h
  cases hb : buildCallerHeaders [] hm with
  | error e => rw [hb] at h; exact Except.noConfusion h
  | ok hs0 =>
    rw [hb] at h
    refine ⟨hs0, rfl, ?_⟩
    cases h
    rfl

/-- C5: the header container of every dispatched fetch maps x-user-agent to
grpc-web-rust/0.1 and content-type to the value derived from the configured
transport encoding, whatever the caller supplied for those names: the two
force-sets run after the caller copy, so infrastructure headers win. -/
theorem dispatch_forced_headers (c : Client) (rpc : RpcRequest)
    (host : Except JsErr HostResponse) (call : FetchCall)
    (hs : List (String × String))
    (h : (Client.request c rpc host).2 = Option.some call)
    (hh : call.init.headers = Option.some hs) :
    headersGet hs ("x-user-agent") = Option.some ("grpc-web-rust/0.1") ∧
    headersGet hs ("content-type") =
      Option.some (Encoding.to_content_type c.encoding) := by
  rw [request_snd_eq] at h
  cases hb : buildRequestHeaders c rpc.headers with
  | error e => rw [hb] at h; exact Option.noConfusion h
  | ok hsr =>
    rw [hb] at h
    cases h
    have hh2 : hsr = hs := Option.some.inj hh
    rw [hh2] at hb
    obtain ⟨hs0, hc, hshape⟩ := buildRequestHeaders_ok_shape c rpc.headers hs hb
    rw [hshape]
    constructor
    · rw [headersGet_headersSet_other _ _ _ _ (by decide)]
      exact headersGet_headersSet_self _ _ _
    · exact headersGet_headersSet_self _ _ _

/-- Witness for C5 at a dispatch whose caller supplies competing values for
both forced header names. -/
theorem dispatch_forced_headers_witness :
    headersGet [("x-user-agent", "grpc-web-rust/0.1"),
                ("content-type", "application/grpc-web-text+proto")]
        ("x-user-agent") = Option.some ("grpc-web-rust/0.1") ∧
    headersGet [("x-user-agent", "grpc-web-rust/0.1"),
                ("content-type", "application/grpc-web-text+proto")]
        ("content-type") =
      Option.some (Encoding.to_content_type sampleClient.encoding) := by
  exact dispatch_forced_headers sampleClient
    { uri := "/pkg.Service/Method"
      headers := [("x-user-agent", [101, 118, 105, 108]),
                  ("content-type", [101, 118, 105, 108])]
      body := [] }
    sampleReject
    { uri := "https://api.example.com/pkg.Service/Method"
      init := { method := Option.some ("POST")
                credentials := Option.none
                mode := Option.none
                body := Option.some []
                headers := Option.some
                  [("x-user-agent", "grpc-web-rust/0.1"),
                   ("content-type", "application/grpc-web-text+proto")] } }
    [("x-user-agent", "grpc-web-rust/0.1"),
     ("content-type", "application/grpc-web-text+proto")]
    (by decide) (by decide)

/-- C6: a host response whose body stream is absent makes the dispatch
fail with the descriptive unified error, given that the stages before the
body check (outbound header construction and response header re-validation)
go through; no response value is produced and no panic is modelled
anywhere in the dispatch. -/
theorem response_body_empty_fails (c : Client) (rpc : RpcRequest)
    (res : HostResponse) (hs rhs : List (String × String))
    (h1 : buildRequestHeaders c rpc.headers = Except.ok hs)
    (h2 : parseResponseHeaders res.headers = Except.ok rhs)
    (h3 : res.body = Option.none) :
    (Client.request c rpc (Except.ok res)).1 =
      Except.error (ClientError.other ("Response body was empty")) := by
  simp [Client.request, h1, h2, h3]

/-- Witness for C6 at a concrete bodyless host response. -/
theorem response_body_empty_fails_witness :
    (Client.request (Client.new ("https://api.example.com")) sampleRpc
      (Except.ok { status := 200, headers := [], body := Option.none })).1 =
      Except.error (ClientError.other ("Response body was empty")) :=
  response_body_empty_fails (Client.new ("https://api.example.com")) sampleRpc
    { status := 200, headers := [], body := Option.none }
    [("x-user-agent", "grpc-web-rust/0.1"),
     ("content-type", "application/grpc-web+proto")]
    [] (by decide) (by decide) rfl

/-- A response header entry is well-formed in the parts it carries: a
present name parses as a header name, a present value parses as a header
value. -/
def entryPartsValid (p : Option String × Option String) : Bool :=
  (match p.1 with
   | Option.none => true
   | Option.some n => decide (headerNameFromString n = Except.ok (lowerAscii n))) &&
  (match p.2 with
   | Option.none => true
   | Option.some v => decide (headerValueFromString v = Except.ok v))

/-- Re-validating response header entries among which one misses a name or
a value fails with the error naming the missing field. -/
theorem parseResponseHeaders_missing
    (entries : List (Option String × Option String))
    (hvalid : ∀ p ∈ entries, entryPartsValid p = true)
    (hdef : ∃ p ∈ entries, p.1 = Option.none ∨ p.2 = Option.none) :
    parseResponseHeaders entries =
      Except.error (ClientError.other ("Header pair had no name")) ∨
    parseResponseHeaders entries =
      Except.error (ClientError.other ("Header pair had no value")) := by
  induction entries with
  | nil => simp at hdef
  | cons p rest ih =>
    obtain ⟨a, b⟩ := p
    have hpv := hvalid (a, b) (List.mem_cons_self _ _)
    cases a with
    | none => exact Or.inl rfl
    | some n =>
      have hn : headerNameFromString n = Except.ok (lowerAscii n) := by
        simp only [entryPartsValid, Bool.and_eq_true, decide_eq_true_eq] at hpv
        exact hpv.1
      cases b with
      | none =>
        refine Or.inr ?_
        simp [parseResponseHeaders, hn]
      | some v =>
        have hv : headerValueFromString v = Except.ok v := by
          simp only [entryPartsValid, Bool.and_eq_true, decide_eq_true_eq] at hpv
          exact hpv.2
        have hdr : ∃ p ∈ rest, p.1 = Option.none ∨ p.2 = Option.none := by
          rcases hdef with ⟨q, hq, hq2⟩
          rcases List.mem_cons.mp hq with rfl | hq3
          · rcases hq2 with h | h <;> exact Option.noConfusion h
          · exact ⟨q, hq3, hq2⟩
        have hstep : parseResponseHeaders ((Option.some n, Option.some v) :: rest) =
            match parseResponseHeaders rest with
            | Except.error e => Except.error e
            | Except.ok tail => Except.ok ((lowerAscii n, v) :: tail) := by
          simp [parseResponseHeaders, hn, hv]
        rcases ih (fun q hq => hvalid q (List.mem_cons_of_mem _ hq)) hdr with
          hrec | hrec
        · exact Or.inl (by rw [hstep, hrec])
        · exact Or.inr (by rw [hstep, hrec])

/-- C7: a host response header entry with a missing name or value makes the
dispatch fail with the error naming the missing field, provided the parts
entries do carry are themselves valid (so no other re-validation error
preempts the loop); the entry is never skipped and no response is
returned. -/
theorem response_header_missing_part_fails (c : Client) (rpc : RpcRequest)
    (res : HostResponse) (hs : List (String × String))
    (h1 : buildRequestHeaders c rpc.headers = Except.ok hs)
    (hvalid : ∀ p ∈ res.headers, entryPartsValid p = true)
    (hdef : ∃ p ∈ res.headers, p.1 = Option.none ∨ p.2 = Option.none) :
    (Client.request c rpc (Except.ok res)).1 =
      Except.error (ClientError.other ("Header pair had no name")) ∨
    (Client.request c rpc (Except.ok res)).1 =
      Except.error (ClientError.other ("Header pair had no value")) := by
  rcases parseResponseHeaders_missing res.headers hvalid hdef with hp | hp
  · exact Or.inl (by simp [Client.request, h1, hp])
  · exact Or.inr (by simp [Client.request, h1, hp])

/-- Witness for C7 at a host response whose single header entry has no
name. -/
theorem response_header_missing_part_fails_witness :
    (Client.request (Client.new ("")) sampleRpc
      (Except.ok { status := 200
                   headers := [(Option.none, Option.some ("a"))]
                   body := Option.none })).1 =
      Except.error (ClientError.other ("Header pair had no name")) ∨
    (Client.request (Client.new ("")) sampleRpc
      (Except.ok { status := 200
                   headers := [(Option.none, Option.some ("a"))]
                   body := Option.none })).1 =
      Except.error (ClientError.other ("Header pair had no value")) :=
  response_header_missing_part_fails (Client.new ("")) sampleRpc
    { status := 200
      headers := [(Option.none, Option.some ("a"))]
      body := Option.none }
    [("x-user-agent", "grpc-web-rust/0.1"),
     ("content-type", "application/grpc-web+proto")]
    (by decide) (by decide) (by decide)

/-- Every failure of the value-to-string conversion carries the fixed
invalid-ASCII message. -/
theorem headerValueToStr_error_msg (v : List Byte) (e : ClientError)
    (h : headerValueToStr v = Except.error e) :
    e = ClientError.other ("Header value contained invalid ASCII") := by
  unfold headerValueToStr at h
  by_cases hall : v.all visibleAscii
  · rw [if_pos hall] at h
    exact Except.noConfusion h
  · rw [if_neg hall] at h
    exact (Except.error.inj h).symm

/-- A value containing a byte outside ASCII fails the conversion. -/
theorem headerValueToStr_non_ascii (v : List Byte)
    (hbad : ∃ b ∈ v, 128 ≤ b) :
    headerValueToStr v =
      Except.error (ClientError.other ("Header value contained invalid ASCII")) := by
  unfold headerValueToStr
  rw [if_neg]
  intro hall
  rcases hbad with ⟨b, hb, h128⟩
  have := visibleAscii_lt b (List.all_eq_true.mp hall b hb)
  exact absurd this (by
    intro hlt
    have : (128 : Nat) ≤ 126 := by
      calc (128 : Nat) ≤ b := h128
        _ ≤ 126 := Nat.le_of_lt_succ hlt
    exact absurd this (by decide))

/-- Copying a header mapping that contains a non-ASCII value byte fails
with the invalid-ASCII error, regardless of the accumulator. -/
theorem buildCallerHeaders_non_ascii (hm : List (String × List Byte))
    (acc : List (String × String))
    (hbad : ∃ p ∈ hm, ∃ b ∈ p.2, 128 ≤ b) :
    buildCallerHeaders acc hm =
      Except.error (ClientError.other ("Header value contained invalid ASCII")) := by
  induction hm generalizing acc with
  | nil => simp at hbad
  | cons p rest ih =>
    obtain ⟨k, v⟩ := p
    cases hts : headerValueToStr v with
    | error e =>
      have := headerValueToStr_error_msg v e hts
      simp [buildCallerHeaders, hts, this]
    | ok s =>
      have hbadr : ∃ p ∈ rest, ∃ b ∈ p.2, 128 ≤ b := by
        rcases hbad with ⟨q, hq, hqb⟩
        rcases List.mem_cons.mp hq with rfl | hq2
        · rw [headerValueToStr_non_ascii v hqb] at hts
          exact Except.noConfusion hts
        · exact ⟨q, hq2, hqb⟩
      simpa [buildCallerHeaders, hts] using ih (headersSet acc k s) hbadr

/-- C8: an outbound request with a header value containing non-ASCII bytes
makes the dispatch fail with the invalid-ASCII error during outbound
header construction, and no fetch invocation is recorded, for any host
behavior whatsoever. -/
theorem invalid_ascii_fails_before_fetch (c : Client) (rpc : RpcRequest)
    (host : Except JsErr HostResponse)
    (hbad : ∃ p ∈ rpc.headers, ∃ b ∈ p.2, 128 ≤ b) :
    (Client.request c rpc host).1 =
      Except.error (ClientError.other ("Header value contained invalid ASCII")) ∧
    (Client.request c rpc host).2 = Option.none := by
  have hb := buildCallerHeaders_non_ascii rpc.headers [] hbad
  have hbr : buildRequestHeaders c rpc.headers =
      Except.error (ClientError.other ("Header value contained invalid ASCII")) := by
    simp [buildRequestHeaders, hb]
  constructor
  · simp [Client.request, hbr]
  · simp [Client.request, hbr]

/-- Witness for C8 at a request carrying the byte 200 in a header value. -/
theorem invalid_ascii_fails_before_fetch_witness :
    (Client.request sampleClient
      { uri := "/pkg.Service/Method"
        headers := [("x-custom", [200])], body := [] } sampleReject).1 =
      Except.error (ClientError.other ("Header value contained invalid ASCII")) ∧
    (Client.request sampleClient
      { uri := "/pkg.Service/Method"
        headers := [("x-custom", [200])], body := [] } sampleReject).2 =
      Option.none :=
  invalid_ascii_fails_before_fetch sampleClient
    { uri := "/pkg.Service/Method"
      headers := [("x-custom", [200])], body := [] }
    sampleReject (by decide)

end GrpcWebClient
